/-
  Verification of the transcription orchestration and crash-safe streaming
  pipeline of personal-transcribe.

  Shallow embedding of:
    - src/models/transcript.py              (Word, Segment, Transcript)
    - src/transcription/transcribe_process.py
        (init_stream_file, append_segment_to_file, flush_segments_to_file,
         finalize_stream_file, run_transcription, device detection)
    - src/ui/transcription_dialog.py
        (TranscriptionWorkerV2: _determine_device, _merge_sentence_fragments,
         load_from_stream_file, _append_segment_to_stream,
         _finalize_stream_file, the run() cancellation protocol)
    - src/ui/transcription_subprocess_dialog.py
        (SubprocessTranscriptionDialog._check_output_file_complete,
         _on_process_finished)

  Python floats are modelled as rationals (the claims under study concern
  control flow and comparisons, not floating-point rounding); fallible code
  is modelled with Option/Except; the file written by the stream writer is
  modelled as explicitly passed state.
-/
import Mathlib

namespace PersonalTranscribe

/-- Word dataclass of src/models/transcript.py: a single recognized word with
timing and confidence.  Field `end` of the Python dataclass is a Lean keyword
and is rendered `endT`. -/
structure Word where
  text : String
  start : ℚ
  endT : ℚ
  confidence : ℚ
deriving DecidableEq, Repr

/-- Segment dataclass of src/models/transcript.py: a contiguous span of
recognized speech.  Defaults follow the dataclass defaults. -/
structure Segment where
  id : String
  start_time : ℚ
  end_time : ℚ
  text : String
  words : List Word := []
  speaker_label : String := ""
  is_bookmarked : Bool := false
deriving DecidableEq, Repr

/-- Transcript container of src/models/transcript.py restricted to the fields
produced by load_from_stream_file (created_at/modified_at are wall-clock
timestamps and are not modelled). -/
structure Transcript where
  segments : List Segment
  audio_duration : ℚ
  audio_file : String
deriving DecidableEq, Repr

/-- A JSON value, as produced by Python json.load. -/
inductive JVal where
  | jnull : JVal
  | jbool : Bool → JVal
  | jnum : ℚ → JVal
  | jstr : String → JVal
  | jarr : List JVal → JVal
  | jobj : List (String × JVal) → JVal

/-- Python dict lookup (first binding wins; json.load never produces duplicate
keys). -/
def jLookup (fields : List (String × JVal)) (key : String) : Option JVal :=
  match fields with
  | [] => none
  | (k, v) :: rest => if k = key then some v else jLookup rest key

/-- Python dict.get with a default. -/
def jGet (fields : List (String × JVal)) (key : String) (dflt : JVal) : JVal :=
  (jLookup fields key).getD dflt

/-- The exceptions the body of load_from_stream_file can raise: the file being
absent or not valid JSON, a required key missing (Python KeyError), or a value
of the wrong shape for the operation applied to it. -/
inductive LoadErr where
  | fileError : LoadErr
  | keyError : String → LoadErr
  | typeError : LoadErr
deriving DecidableEq, Repr

/-- Python `d[key]`: raises KeyError when the key is absent. -/
def jIndex (fields : List (String × JVal)) (key : String) : Except LoadErr JVal :=
  match jLookup fields key with
  | some v => Except.ok v
  | none => Except.error (LoadErr.keyError key)

/-- Expect a JSON string, per the `str` annotation of the target dataclass
field. -/
def asStr (j : JVal) : Except LoadErr String :=
  match j with
  | JVal.jstr s => Except.ok s
  | _ => Except.error LoadErr.typeError

/-- Expect a JSON number, per the `float` annotation of the target dataclass
field. -/
def asNum (j : JVal) : Except LoadErr ℚ :=
  match j with
  | JVal.jnum q => Except.ok q
  | _ => Except.error LoadErr.typeError

/-- Expect a JSON array (iterating anything else raises). -/
def asArr (j : JVal) : Except LoadErr (List JVal) :=
  match j with
  | JVal.jarr l => Except.ok l
  | _ => Except.error LoadErr.typeError

/-- A Python for-loop that converts each element and appends the result: the
first raised exception aborts the whole loop. -/
def mapME (f : JVal → Except LoadErr α) : List JVal → Except LoadErr (List α)
  | [] => Except.ok []
  | x :: xs => do
      let y ← f x
      let ys ← mapME f xs
      Except.ok (y :: ys)

/-- One word entry of load_from_stream_file
(src/ui/transcription_dialog.py lines 261-267):
Word(text=word_data["text"], start=word_data["start"], end=word_data["end"],
confidence=word_data["confidence"]).  A missing key raises KeyError. -/
def parseWordE (j : JVal) : Except LoadErr Word := do
  match j with
  | JVal.jobj fs =>
      let t ← jIndex fs "text" >>= asStr
      let s ← jIndex fs "start" >>= asNum
      let e ← jIndex fs "end" >>= asNum
      let c ← jIndex fs "confidence" >>= asNum
      Except.ok { text := t, start := s, endT := e, confidence := c }
  | _ => Except.error LoadErr.typeError

/-- One segment entry of load_from_stream_file
(src/ui/transcription_dialog.py lines 259-276): the words list defaults to []
via seg_data.get("words", []), then Segment(id=seg_data["id"], ...).  Any
failure inside the loop body propagates to the enclosing try of
load_from_stream_file. -/
def parseSegmentE (j : JVal) : Except LoadErr Segment := do
  match j with
  | JVal.jobj fs =>
      let ws ← asArr (jGet fs "words" (JVal.jarr []))
      let words ← mapME parseWordE ws
      let i ← jIndex fs "id" >>= asStr
      let st ← jIndex fs "start_time" >>= asNum
      let et ← jIndex fs "end_time" >>= asNum
      let tx ← jIndex fs "text" >>= asStr
      Except.ok { id := i, start_time := st, end_time := et, text := tx,
                  words := words }
  | _ => Except.error LoadErr.typeError

/-- The body of the try block of load_from_stream_file restricted to a parsed
top-level JSON object: data.get("segments", []) is iterated, every entry is
converted, and the Transcript is assembled with
audio_duration=data.get("audio_duration", 0) and
audio_file=data.get("audio_file", ""). -/
def load_fields (fs : List (String × JVal)) : Except LoadErr Transcript := do
  let segJs ← asArr (jGet fs "segments" (JVal.jarr []))
  let segments ← mapME parseSegmentE segJs
  let dur ← asNum (jGet fs "audio_duration" (JVal.jnum 0))
  let af ← asStr (jGet fs "audio_file" (JVal.jstr ""))
  Except.ok { segments := segments, audio_duration := dur, audio_file := af }

/-- The try-block body of load_from_stream_file over the whole input: `none`
models a file that cannot be opened or is not valid JSON (open/json.load
raises); a top-level value that is not an object makes data.get raise. -/
def load_inner (file : Option JVal) : Except LoadErr Transcript :=
  match file with
  | none => Except.error LoadErr.fileError
  | some (JVal.jobj fs) => load_fields fs
  | some _ => Except.error LoadErr.typeError

/-- TranscriptionWorkerV2.load_from_stream_file
(src/ui/transcription_dialog.py lines 241-289): the whole body runs under
`try ... except Exception: return None`, so every error of the body becomes
None at the public interface. -/
def load_from_stream_file (file : Option JVal) : Option Transcript :=
  match load_inner file with
  | Except.ok t => some t
  | Except.error _ => none

/-- Device and precision selection, shared by
TranscriptionWorkerV2._determine_device
(src/ui/transcription_dialog.py lines 590-601) and the device stage of
run_transcription (src/transcription/transcribe_process.py lines 162-179).
`probe` is the outcome of ctranslate2.get_supported_compute_types("cuda"):
an exception (modelled as Except.error) is caught, logged and falls through
to the CPU floor; an empty capability list also falls through.  The requested
device preference is accepted but never consulted by either source
function. -/
def determine_device (device_preference : String)
    (probe : Except String (List String)) : String × String :=
  match probe with
  | Except.error _ => ("cpu", "int8")
  | Except.ok cuda_types =>
      if cuda_types.isEmpty then ("cpu", "int8")
      else ("cuda", if cuda_types.contains "float16" then "float16" else "int8")

/-- One segment record of the streaming persistence document, as built by the
worker loops (src/transcription/transcribe_process.py lines 266-272,
src/ui/transcription_dialog.py lines 484-498). -/
structure SegmentData where
  id : String
  start_time : ℚ
  end_time : ℚ
  text : String
  words : List Word := []
deriving DecidableEq, Repr

/-- The streaming persistence document.  Timestamps (started_at/completed_at)
are opaque strings. -/
structure StreamDoc where
  version : String
  status : String
  audio_file : String
  model : String
  started_at : String
  audio_duration : ℚ
  completed_at : Option String
  segment_count : Option Nat
  segments : List SegmentData
deriving DecidableEq, Repr

/-- init_stream_file (src/transcription/transcribe_process.py lines 71-85);
the in-process _init_stream_file (src/ui/transcription_dialog.py lines
160-172) writes the same initial document. -/
def init_stream_file (audio_path model_size started_at : String) : StreamDoc :=
  { version := "1.0"
    status := "in_progress"
    audio_file := audio_path
    model := model_size
    started_at := started_at
    audio_duration := 0
    completed_at := none
    segment_count := none
    segments := [] }

/-- flush_segments_to_file (src/transcription/transcribe_process.py lines
103-117): with an empty buffer it returns without touching the file;
otherwise it reads the document, extends its segments with the buffer, and
rewrites the file.  The file content is the passed/returned document. -/
def flush_segments_to_file (doc : StreamDoc) (segment_buffer : List SegmentData) :
    StreamDoc :=
  if segment_buffer.isEmpty then doc
  else { doc with segments := doc.segments ++ segment_buffer }

/-- append_segment_to_file (src/transcription/transcribe_process.py lines
88-100): buffer the segment; flush and clear the buffer once it holds 50
segments. -/
def append_segment_to_file (doc : StreamDoc) (segment_buffer : List SegmentData)
    (segment_data : SegmentData) : StreamDoc × List SegmentData :=
  let buf := segment_buffer ++ [segment_data]
  if 50 ≤ buf.length then (flush_segments_to_file doc buf, [])
  else (doc, buf)

/-- finalize_stream_file (src/transcription/transcribe_process.py lines
120-134); the in-process _finalize_stream_file
(src/ui/transcription_dialog.py lines 206-235) performs the same update.
It sets the terminal status, the audio duration, the completion timestamp and
segment_count = len(segments); it does not touch the segments list. -/
def finalize_stream_file (doc : StreamDoc) (audio_duration : ℚ) (status : String)
    (completed_at : String) : StreamDoc :=
  { doc with
      status := status
      audio_duration := audio_duration
      completed_at := some completed_at
      segment_count := some doc.segments.length }

/-- The per-segment portion of the run_transcription loop
(src/transcription/transcribe_process.py lines 250-297) as it affects the
document and buffer: each segment is handed to append_segment_to_file. -/
def runSegments (doc : StreamDoc) (buf : List SegmentData) :
    List SegmentData → StreamDoc × List SegmentData
  | [] => (doc, buf)
  | s :: rest =>
      let r := append_segment_to_file doc buf s
      runSegments r.1 r.2 rest

/-- The running last_end_time variable: starting from `le`, each processed
segment overwrites it with its end time, so the result is the end time of the
last listed segment (or `le` for no segments). -/
def lastEndD (le : ℚ) : List SegmentData → ℚ
  | [] => le
  | s :: rest => lastEndD s.end_time rest

/-- run_transcription (src/transcription/transcribe_process.py lines 143-335)
restricted to its effect on the persistence document.  `segs` are the segment
records the engine yields; `errAt = some k` models an unrecoverable exception
raised after exactly (min k segs.length) segments were handed to
append_segment_to_file, which jumps to the outer except handler: that handler
calls finalize_stream_file(output_path, 0, "error") and returns False without
flushing the local segment_buffer.  `errAt = none` is the normal path: the
remaining buffer is flushed (line 300), audio_duration falls back to
last_end_time when the engine reported 0, and the document is finalized with
status "complete".  The Bool is the function's return value. -/
def run_transcription (segs : List SegmentData) (audio_duration : ℚ)
    (errAt : Option Nat) (audio_path model_size started_at completed_at : String) :
    Bool × StreamDoc :=
  let doc0 := init_stream_file audio_path model_size started_at
  match errAt with
  | some k =>
      let r := runSegments doc0 [] (segs.take k)
      (false, finalize_stream_file r.1 0 "error" completed_at)
  | none =>
      let r := runSegments doc0 [] segs
      let d1 := flush_segments_to_file r.1 r.2
      let lastEnd := lastEndD 0 segs
      let dur := if audio_duration = 0 ∧ 0 < lastEnd then lastEnd else audio_duration
      (true, finalize_stream_file d1 dur "complete" completed_at)

/-- SubprocessTranscriptionDialog._check_output_file_complete
(src/ui/transcription_subprocess_dialog.py lines 313-334).  The input models
the file at output_path: `none` when the path does not exist, `some none`
when it exists but opening/parsing raises (caught, returns False),
`some (some d)` when it parses.  Returns True exactly when the parsed
document has status "complete" and a non-empty segments list. -/
def check_output_file_complete (file : Option (Option StreamDoc)) : Bool :=
  match file with
  | none => false
  | some none => false
  | some (some d) => d.status == "complete" && decide (0 < d.segments.length)

/-- The outcome of SubprocessTranscriptionDialog._on_process_finished:
`success` emits transcription_complete (its flag records whether the
"crashed during cleanup" warning branch was taken, i.e. exit_code ≠ 0);
`failure` does not emit it (its flag records whether the partial-file hint
was logged, i.e. the output file exists). -/
inductive FinishReport where
  | success : Bool → FinishReport
  | failure : Bool → FinishReport
deriving DecidableEq, Repr

/-- SubprocessTranscriptionDialog._on_process_finished
(src/ui/transcription_subprocess_dialog.py lines 278-311): the decision is
taken solely on _check_output_file_complete; the exit code only selects the
log message. -/
def on_process_finished (exit_code : Int) (file : Option (Option StreamDoc)) :
    FinishReport :=
  if check_output_file_complete file then
    FinishReport.success (exit_code != 0)
  else
    FinishReport.failure file.isSome

/-- Whether a terminal report is the success outcome (transcription_complete
emitted). -/
def reportsSuccess : FinishReport → Bool
  | FinishReport.success _ => true
  | FinishReport.failure _ => false

/-! ### File rewrite trace (flush I/O granularity)

flush_segments_to_file and _append_segment_to_stream both rewrite the stream
file with `open(path, "w")` followed by `json.dump(data, f)`: opening with
mode "w" truncates the file, and only then is the new serialization written.
The trace below records the file content observable before, between and after
these two file operations. -/

/-- A file operation of the rewrite sequence. -/
inductive FileOp where
  | openTrunc : FileOp
  | writeData : String → FileOp
deriving DecidableEq, Repr

/-- Effect of one file operation on the file content. -/
def applyFileOp (state : String) : FileOp → String
  | FileOp.openTrunc => ""
  | FileOp.writeData s => s

/-- The file operations of `open(path, "w"); json.dump(data, f)`. -/
def rewriteFileOps (contents : String) : List FileOp :=
  [FileOp.openTrunc, FileOp.writeData contents]

/-- All file contents observable along a sequence of file operations,
starting from the prior content (the state before each operation and after
the last). -/
def fileStates (prior : String) : List FileOp → List String
  | [] => [prior]
  | op :: rest => prior :: fileStates (applyFileOp prior op) rest

/-- Rendering of a rational in the serialized document (mirrors Python float
repr only in so far as the claims need: some string). -/
def qStr (q : ℚ) : String := toString q.num ++ "/" ++ toString q.den

/-- Serialization of one word record, modelling the json.dump rendering of
the word dicts built by the worker. -/
def serializeWord (w : Word) : String :=
  "\x7b\"text\": \"" ++ w.text ++ "\", \"start\": " ++ qStr w.start ++
    ", \"end\": " ++ qStr w.endT ++ ", \"confidence\": " ++ qStr w.confidence ++
    "\x7d"

/-- Serialization of one segment record of the stream document. -/
def serializeSegmentData (s : SegmentData) : String :=
  "\x7b\"id\": \"" ++ s.id ++ "\", \"start_time\": " ++ qStr s.start_time ++
    ", \"end_time\": " ++ qStr s.end_time ++ ", \"text\": \"" ++ s.text ++
    "\", \"words\": [" ++ String.intercalate ", " (s.words.map serializeWord) ++
    "]\x7d"

/-- The brace-delimited body of the serialized stream document. -/
def serializeDocBody (d : StreamDoc) : String :=
  "\"version\": \"" ++ d.version ++ "\", \"status\": \"" ++ d.status ++
    "\", \"audio_file\": \"" ++ d.audio_file ++ "\", \"model\": \"" ++ d.model ++
    "\", \"started_at\": \"" ++ d.started_at ++ "\", \"audio_duration\": " ++
    qStr d.audio_duration ++ ", \"segments\": [" ++
    String.intercalate ", " (d.segments.map serializeSegmentData) ++ "]"

/-- Serialization of the stream document, modelling json.dump(data, f): the
exact whitespace and escaping of json.dump are immaterial to the claims,
which depend only on the whole document being written as one string after the
truncation. -/
def serializeDoc (d : StreamDoc) : String :=
  "\x7b" ++ serializeDocBody d ++ "\x7d"

/-- The file contents observable while flush_segments_to_file runs on a file
currently holding `doc`: an empty buffer returns before any file operation;
otherwise the file is truncated and then the serialization of the document
extended by the buffer is written. -/
def flush_file_states (doc : StreamDoc) (buf : List SegmentData) : List String :=
  if buf.isEmpty then [serializeDoc doc]
  else fileStates (serializeDoc doc)
    (rewriteFileOps (serializeDoc (flush_segments_to_file doc buf)))

/-! ### Sentence-fragment merging

TranscriptionWorkerV2._merge_sentence_fragments
(src/ui/transcription_dialog.py lines 603-680). -/

/-- The closing-quote characters of the pattern `[.!?]["\x27]*$`: a double
quote (0x22) or an apostrophe (0x27). -/
def isCloseQuote (c : Char) : Bool := c = Char.ofNat 34 || c = Char.ofNat 39

/-- sentence_end_pattern.search(text): the text ends with `.`, `!` or `?`,
optionally followed by closing quotes.  (The texts this is applied to are
built from stripped parts, so the trailing-newline subtlety of the `$` anchor
never arises.) -/
def ends_with_sentence (s : String) : Bool :=
  match s.toList.reverse.dropWhile isCloseQuote with
  | [] => false
  | c :: _ => c = '.' || c = '!' || c = '?'

/-- " ".join(parts). -/
def joinSpace (parts : List String) : String := String.intercalate " " parts

/-- State of the inner absorption loop: the collected text parts, the
concatenated words, the running end time of the fragment, and merge_count. -/
structure MergeAcc where
  parts : List String
  words : List Word
  endT : ℚ
  cnt : Nat
deriving DecidableEq, Repr

/-- One absorption step (lines 650-653): append the next segment's stripped
text, extend the words, advance the end time, increment merge_count. -/
def absorbStep (acc : MergeAcc) (next : Segment) : MergeAcc :=
  { parts := acc.parts ++ [next.text.trim]
    words := acc.words ++ next.words
    endT := next.end_time
    cnt := acc.cnt + 1 }

/-- The inner `while j < len(segments)` loop (lines 642-664).  Returns the
final accumulator together with the list the outer loop continues on: Python
sets `i = j + 1` after the loop, so the segment at the final position j is
consumed in every exit — including the `gap > 3.0` break, which consumes
(drops) a segment that was never absorbed. -/
def innerMerge (acc : MergeAcc) : List Segment → MergeAcc × List Segment
  | [] => (acc, [])
  | next :: tail =>
      if (3 : ℚ) < next.start_time - acc.endT then (acc, tail)
      else
        let acc2 := absorbStep acc next
        if ends_with_sentence (joinSpace acc2.parts) then (acc2, tail)
        else if 5 ≤ acc2.cnt then (acc2, tail)
        else innerMerge acc2 tail

/-- The merged segment built after the inner loop (lines 666-676): first
segment's id, start time, speaker label and bookmark flag; accumulated end
time, joined text and concatenated words. -/
def mkMerged (first : Segment) (acc : MergeAcc) : Segment :=
  { id := first.id
    start_time := first.start_time
    end_time := acc.endT
    text := joinSpace acc.parts
    words := acc.words
    speaker_label := first.speaker_label
    is_bookmarked := first.is_bookmarked }

/-- The accumulator the outer loop seeds the inner loop with (lines 636-639). -/
def initAcc (first : Segment) : MergeAcc :=
  { parts := [first.text.trim], words := first.words,
    endT := first.end_time, cnt := 0 }

/-- The outer `while i < len(segments)` loop (lines 620-678).  The loop
advances `i` past every consumed segment, so the recursion is bounded by the
list length; that bound is supplied as structural fuel, and
merge_sentence_fragments instantiates it with the length, which the fuel
never falls below (innerMerge consumes at least one element whenever it
advances). -/
def mergeLoopFuel : Nat → List Segment → List Segment
  | 0, segs => segs
  | _ + 1, [] => []
  | _ + 1, [s] => [s]
  | fuel + 1, s :: next :: rest =>
      if ends_with_sentence s.text.trim then
        s :: mergeLoopFuel fuel (next :: rest)
      else
        let r := innerMerge (initAcc s) (next :: rest)
        mkMerged s r.1 :: mergeLoopFuel fuel r.2

/-- TranscriptionWorkerV2._merge_sentence_fragments (lines 603-680). -/
def merge_sentence_fragments (segments : List Segment) : List Segment :=
  if segments.length ≤ 1 then segments
  else mergeLoopFuel segments.length segments

/-- Instrumented inner loop: identical control flow to innerMerge, but also
returns the list of segments it absorbed, in order.  innerMergeAbs_agrees
proves it projects to innerMerge. -/
def innerMergeAbs (acc : MergeAcc) :
    List Segment → MergeAcc × List Segment × List Segment
  | [] => (acc, [], [])
  | next :: tail =>
      if (3 : ℚ) < next.start_time - acc.endT then (acc, tail, [])
      else
        let acc2 := absorbStep acc next
        if ends_with_sentence (joinSpace acc2.parts) then (acc2, tail, [next])
        else if 5 ≤ acc2.cnt then (acc2, tail, [next])
        else
          let r := innerMergeAbs acc2 tail
          (r.1, r.2.1, next :: r.2.2)

/-- Instrumented outer loop: each emitted segment is paired with the original
segments it comprises (the seed plus the absorbed ones); a non-fragment or
final segment is paired with itself.  mergeLoopG_agrees proves the first
projection is mergeLoopFuel. -/
def mergeLoopG : Nat → List Segment → List (Segment × List Segment)
  | 0, segs => segs.map (fun s => (s, [s]))
  | _ + 1, [] => []
  | _ + 1, [s] => [(s, [s])]
  | fuel + 1, s :: next :: rest =>
      if ends_with_sentence s.text.trim then
        (s, [s]) :: mergeLoopG fuel (next :: rest)
      else
        let r := innerMergeAbs (initAcc s) (next :: rest)
        (mkMerged s r.1, s :: r.2.2) :: mergeLoopG fuel r.2.1

/-- The constituent groups of merge_sentence_fragments' output segments. -/
def mergeGroups (segments : List Segment) : List (Segment × List Segment) :=
  if segments.length ≤ 1 then segments.map (fun s => (s, [s]))
  else mergeLoopG segments.length segments

/-- Every consecutive pair of a chain, measured from a starting end time,
has a start-minus-end gap of at most `bound`. -/
def gapsChainOK (bound : ℚ) (e : ℚ) : List Segment → Bool
  | [] => true
  | a :: rest => decide (a.start_time - e ≤ bound) && gapsChainOK bound a.end_time rest

/-- The chained-gap check of a group, seeded at its first segment's end
time. -/
def gapsFrom : List Segment → Bool
  | [] => true
  | a :: rest => gapsChainOK 3 a.end_time rest

/-- A constituent group is admissible: at most 6 original segments (the seed
plus at most 5 absorbed), and every adjacent pair inside the group is
separated by a gap of at most 3.0 seconds. -/
def groupOK (g : List Segment) : Bool :=
  decide (g.length ≤ 6) && gapsFrom g

/-! ### In-process worker cancellation protocol

TranscriptionWorkerV2.run (src/ui/transcription_dialog.py lines 291-588),
restricted to the part after the stream file has been initialized (line 439):
the `for segment in segments_generator` loop checks self._cancelled at the
top of every iteration body (line 451), i.e. once per pulled segment; on the
observed flag it finalizes the document with status "cancelled" at
last_end_time, emits the cancelled signal and returns.  When the generator is
exhausted without the flag ever being observed, the loop ends and the run
finalizes with status "complete" and emits finished. -/

/-- The externally visible persistence/signal events of the worker run. -/
inductive WEvent where
  | appendSeg : SegmentData → WEvent
  | finalizeDoc : ℚ → String → WEvent
  | cancelledEvt : WEvent
  | finishedEvt : WEvent
deriving DecidableEq, Repr

/-- _append_segment_to_stream (src/ui/transcription_dialog.py lines 180-204):
the in-process worker appends one segment per write (no buffering). -/
def append_segment_to_stream (doc : StreamDoc) (s : SegmentData) : StreamDoc :=
  { doc with segments := doc.segments ++ [s] }

/-- The segment loop.  The cancellation flag is modelled by the number of
flag inspections that happen before the flag is first seen set: `cancelIn`
counts down one per pulled segment, and the flag is observed set when it
reaches 0 with segments remaining.  `cancelIn` at least the number of
segments models a flag that is set after the last pull (or never) and is
therefore never observed by the loop.  `lastEnd` is last_end_time.  Returns
the emitted events, whether the cancel path was taken, and the final
last_end_time. -/
def workerLoopGo : List SegmentData → Nat → ℚ → List WEvent × Bool × ℚ
  | [], _, lastEnd => ([], false, lastEnd)
  | _ :: _, 0, lastEnd =>
      ([WEvent.finalizeDoc lastEnd "cancelled", WEvent.cancelledEvt], true, lastEnd)
  | s :: rest, n + 1, _ =>
      let r := workerLoopGo rest n s.end_time
      (WEvent.appendSeg s :: r.1, r.2.1, r.2.2)

/-- The run from stream-file initialization onward: the loop, then — when the
flag was never observed — the fallback of audio_duration to the last end time
(lines 550-551), finalize(status="complete") and the finished signal. -/
def worker_run (segs : List SegmentData) (cancelIn : Nat) (audio_duration : ℚ) :
    List WEvent :=
  let r := workerLoopGo segs cancelIn 0
  if r.2.1 then r.1
  else
    let dur := if audio_duration = 0 ∧ segs ≠ [] then r.2.2 else audio_duration
    r.1 ++ [WEvent.finalizeDoc dur "complete", WEvent.finishedEvt]

/-- Effect of one worker event on the persistence document (the signal
events do not touch the file). -/
def applyEvent (doc : StreamDoc) : WEvent → StreamDoc
  | WEvent.appendSeg s => append_segment_to_stream doc s
  | WEvent.finalizeDoc d st => finalize_stream_file doc d st ""
  | WEvent.cancelledEvt => doc
  | WEvent.finishedEvt => doc

/-- The document after a sequence of worker events. -/
def applyEvents (doc : StreamDoc) : List WEvent → StreamDoc
  | [] => doc
  | e :: rest => applyEvents (applyEvent doc e) rest

/-! ### Concrete fixtures used by witnesses and counterexamples -/

/-- A first sample segment record. -/
def segA : SegmentData := { id := "s1", start_time := 0, end_time := 1, text := "alpha" }

/-- A second sample segment record. -/
def segB : SegmentData := { id := "s2", start_time := 1, end_time := 2, text := "beta" }

/-- A third sample segment record. -/
def segC : SegmentData := { id := "s3", start_time := 2, end_time := 3, text := "gamma" }

/-- A freshly initialized stream document. -/
def doc0 : StreamDoc := init_stream_file "a.wav" "large-v3" "t0"

/-- A document finalized as complete with an empty segments list. -/
def emptyCompleteDoc : StreamDoc := { doc0 with status := "complete" }

/-- A fragment segment (no terminal punctuation). -/
def segHello : Segment := { id := "h1", start_time := 0, end_time := 1, text := "Hello" }

/-- A sentence-ending segment starting 4.0 s after segHello ends. -/
def segWorldFar : Segment := { id := "w1", start_time := 5, end_time := 6, text := "World." }

/-- A sentence-ending segment starting exactly 3.0 s after segHello ends. -/
def segWorldGap3 : Segment := { id := "w2", start_time := 4, end_time := 5, text := "world." }

/-- A one-word fragment at integer time i (used to build runs of
fragments). -/
def mkFrag (i : Nat) (t : String) : Segment :=
  { id := t, start_time := (i : ℚ), end_time := (i : ℚ), text := t }

/-- Seven consecutive fragments 1.0 s apart, none ending in terminal
punctuation. -/
def ex7 : List Segment :=
  [mkFrag 0 "a", mkFrag 1 "b", mkFrag 2 "c", mkFrag 3 "d",
   mkFrag 4 "e", mkFrag 5 "f", mkFrag 6 "g"]

/-- A well-formed JSON segment entry. -/
def goodSegJ : JVal :=
  JVal.jobj [("id", JVal.jstr "s1"), ("start_time", JVal.jnum 0),
             ("end_time", JVal.jnum 1), ("text", JVal.jstr "alpha"),
             ("words", JVal.jarr [])]

/-- A malformed JSON segment entry: the required key "id" is missing, so
Segment(id=seg_data["id"], ...) raises KeyError. -/
def badSegJ : JVal :=
  JVal.jobj [("start_time", JVal.jnum 1), ("end_time", JVal.jnum 2),
             ("text", JVal.jstr "beta")]

/-- A stream document (status "error") holding one well-formed and one
malformed segment entry. -/
def c4doc : JVal :=
  JVal.jobj [("version", JVal.jstr "1.0"), ("status", JVal.jstr "error"),
             ("audio_file", JVal.jstr "a.wav"), ("audio_duration", JVal.jnum 100),
             ("segments", JVal.jarr [goodSegJ, badSegJ])]

/-! ### C1 — supervisor success decision -/

/-- C1, counterexample.  The claim says the supervisor treats the run as
failed only if the exit code is non-zero AND the document's status is not
"complete", and that a document with status "complete" is always reported as
success.  The code additionally requires a non-empty segments list: a run
with exit code 0 whose document has status "complete" but zero segments is
reported as failure, refuting the claim at a concrete input. -/
theorem c1_counterexample :
    emptyCompleteDoc.status = "complete"
    ∧ reportsSuccess (on_process_finished 0 (some (some emptyCompleteDoc))) = false := by
  decide

/-- C1 (amended): _on_process_finished reports success exactly when
_check_output_file_complete accepts the document — the file exists, parses,
has status "complete" and a non-empty segments list — and this decision is
independent of the process exit code (in particular, a crashed process whose
document is complete is reported as success, and a cleanly exited process
whose document is not complete-with-segments is reported as failure). -/
theorem c1_amended (exit_code exit_code2 : Int) (file : Option (Option StreamDoc)) :
    reportsSuccess (on_process_finished exit_code file) = check_output_file_complete file
    ∧ (check_output_file_complete file = true ↔
        ∃ d, file = some (some d) ∧ d.status = "complete" ∧ d.segments ≠ [])
    ∧ reportsSuccess (on_process_finished exit_code file)
        = reportsSuccess (on_process_finished exit_code2 file) := by
  refine ⟨?_, ?_, ?_⟩
  · cases h : check_output_file_complete file <;>
      simp [on_process_finished, h, reportsSuccess]
  · match file with
    | none => simp [check_output_file_complete]
    | some none => simp [check_output_file_complete]
    | some (some d) =>
        simp [check_output_file_complete, List.length_pos]
  · cases h : check_output_file_complete file <;>
      simp [on_process_finished, h, reportsSuccess]

/-! ### C2 — finalize and the segment buffer -/

/-- C2, evaluation at the failing input.  Three segments are emitted and
buffered (3 < 50, so no flush has happened), then an unrecoverable error is
raised: the except handler of run_transcription finalizes the document with
status "error" WITHOUT flushing segment_buffer, so the error-finalized
document contains none of the three segments (segment_count = 0), while the
same run without the error flushes all three at finalize. -/
theorem c2_error_finalize_drops_buffer :
    (run_transcription [segA, segB, segC] 10 (some 3) "a.wav" "large-v3" "t0" "t1").2.status
        = "error"
    ∧ (run_transcription [segA, segB, segC] 10 (some 3) "a.wav" "large-v3" "t0" "t1").2.segments
        = []
    ∧ (run_transcription [segA, segB, segC] 10 (some 3) "a.wav" "large-v3" "t0" "t1").2.segment_count
        = some 0
    ∧ (run_transcription [segA, segB, segC] 10 none "a.wav" "large-v3" "t0" "t1").2.segments
        = [segA, segB, segC] := by
  decide

/-! ### C3 — flush atomicity -/

/-- The serialized document is never the empty string (it is brace
delimited). -/
theorem serializeDoc_ne_empty (d : StreamDoc) : serializeDoc d ≠ "" := by
  intro h
  have h2 := congrArg String.length h
  unfold serializeDoc at h2
  rw [String.length_append, String.length_append] at h2
  have hb : ("\x7b" : String).length = 1 := rfl
  have he : ("\x7d" : String).length = 1 := rfl
  have h0 : ("" : String).length = 0 := rfl
  rw [hb, he, h0] at h2
  omega

/-- C3, counterexample.  The claim says that after every flush — including
one failing partway — the file holds either the prior document or the fully
rewritten new one.  The flush of flush_segments_to_file (and of
_append_segment_to_stream) opens the file with mode "w", which truncates it,
and only then writes the new serialization: the state between the two file
operations is the empty file, which is neither the prior nor the new
document. -/
theorem c3_counterexample :
    "" ∈ flush_file_states doc0 [segA]
    ∧ "" ≠ serializeDoc doc0
    ∧ "" ≠ serializeDoc (flush_segments_to_file doc0 [segA]) := by
  decide

/-- C3 (amended): a flush with an empty buffer performs no file operation
(the prior document stays); a flush with a non-empty buffer rewrites the file
in place — truncate, then write — so the observable file states are exactly
the prior serialized document, the empty (truncated) file, and the new
serialized document holding all prior plus all buffered segments.  A
completed flush therefore fully replaces the content, but a flush
interrupted between truncation and write leaves a state that is neither the
prior nor the new document. -/
theorem c3_amended (doc : StreamDoc) (buf : List SegmentData) :
    flush_file_states doc [] = [serializeDoc doc]
    ∧ (buf ≠ [] →
        flush_file_states doc buf
            = [serializeDoc doc, "", serializeDoc (flush_segments_to_file doc buf)]
          ∧ serializeDoc doc ≠ ""
          ∧ serializeDoc (flush_segments_to_file doc buf) ≠ "") := by
  refine ⟨rfl, fun hne => ⟨?_, serializeDoc_ne_empty _, serializeDoc_ne_empty _⟩⟩
  match buf, hne with
  | b :: bs, _ => rfl

/-- C3 (amended), witness at a concrete document and buffer. -/
theorem c3_amended_witness :
    flush_file_states doc0 [segA]
        = [serializeDoc doc0, "", serializeDoc (flush_segments_to_file doc0 [segA])]
    ∧ serializeDoc doc0 ≠ "" :=
  ⟨((c3_amended doc0 [segA]).2 (by decide)).1,
   ((c3_amended doc0 [segA]).2 (by decide)).2.1⟩

/-! ### C5/C6/C7 — sentence-fragment merging -/

/-- C5, counterexample.  The claim says no merged segment ever joins two
adjacent original segments whose gap is at least 3.0 s.  The code only
breaks on `gap > 3.0`, so a gap of exactly 3.0 s is bridged: segHello ends
at 1.0 and segWorldGap3 starts at 4.0, and the two are merged into one
segment.  (The 5-absorption cap likewise allows a merged segment to span 6
original segments, one more than the claimed 5 — see the amended
theorem.) -/
theorem c5_counterexample :
    segWorldGap3.start_time - segHello.end_time = 3
    ∧ merge_sentence_fragments [segHello, segWorldGap3]
        = [{ id := "h1", start_time := 0, end_time := 5, text := "Hello world." }] := by
  with_unfolding_all decide

/-- Helper for C5: the instrumented inner loop projects to the source inner
loop. -/
theorem innerMergeAbs_agrees (acc : MergeAcc) (l : List Segment) :
    ((innerMergeAbs acc l).1, (innerMergeAbs acc l).2.1) = innerMerge acc l := by
  induction l generalizing acc with
  | nil => rfl
  | cons next tail ih =>
      simp only [innerMergeAbs, innerMerge]
      by_cases h1 : (3 : ℚ) < next.start_time - acc.endT
      · simp [h1]
      · by_cases h2 : ends_with_sentence (joinSpace (absorbStep acc next).parts) = true
        · simp [h1, h2]
        · by_cases h3 : 5 ≤ (absorbStep acc next).cnt
          · simp [h1, h2, h3]
          · simp [h1, h2, h3, ih]

/-- Helper for C5: each absorbed segment increments merge_count by one. -/
theorem innerMergeAbs_cnt (acc : MergeAcc) (l : List Segment) :
    (innerMergeAbs acc l).1.cnt = acc.cnt + (innerMergeAbs acc l).2.2.length := by
  induction l generalizing acc with
  | nil => simp [innerMergeAbs]
  | cons next tail ih =>
      simp only [innerMergeAbs]
      split
      · simp
      · split
        · simp [absorbStep]
        · split
          · simp [absorbStep]
          · have hrec := ih (absorbStep acc next)
            simp [absorbStep] at hrec ⊢
            omega

/-- Helper for C5: the loop never lets merge_count exceed 5 (it breaks as
soon as the incremented count reaches 5). -/
theorem innerMergeAbs_cnt_le (acc : MergeAcc) (l : List Segment) (h : acc.cnt ≤ 4) :
    (innerMergeAbs acc l).1.cnt ≤ 5 := by
  induction l generalizing acc with
  | nil => simp [innerMergeAbs]; omega
  | cons next tail ih =>
      simp only [innerMergeAbs]
      split
      · simp; omega
      · split
        · simp [absorbStep]; omega
        · split
          · rename_i hcap
            simp [absorbStep] at hcap ⊢
            omega
          · rename_i hcap
            simp only [absorbStep] at hcap
            have hrec := ih (absorbStep acc next) (by simp [absorbStep]; omega)
            exact hrec

/-- Helper for C5: every absorbed segment was within 3.0 s of the running end
time at its absorption. -/
theorem innerMergeAbs_gaps (acc : MergeAcc) (l : List Segment) :
    gapsChainOK 3 acc.endT (innerMergeAbs acc l).2.2 = true := by
  induction l generalizing acc with
  | nil => rfl
  | cons next tail ih =>
      simp only [innerMergeAbs]
      split
      · simp [gapsChainOK]
      · rename_i h1
        have hgap : next.start_time - acc.endT ≤ 3 := le_of_not_lt h1
        split
        · simp [gapsChainOK, absorbStep, decide_eq_true_eq, hgap]
        · split
          · simp [gapsChainOK, absorbStep, decide_eq_true_eq, hgap]
          · have hrec := ih (absorbStep acc next)
            simp only [gapsChainOK, Bool.and_eq_true, decide_eq_true_eq]
            exact ⟨hgap, hrec⟩

/-- Helper for C5: the instrumented outer loop projects to the source outer
loop. -/
theorem mergeLoopG_agrees (fuel : Nat) (segs : List Segment) :
    mergeLoopFuel fuel segs = (mergeLoopG fuel segs).map Prod.fst := by
  induction fuel generalizing segs with
  | zero =>
      simp only [mergeLoopFuel, mergeLoopG, List.map_map]
      have hc : (Prod.fst ∘ fun s : Segment => (s, [s])) = id := rfl
      rw [hc, List.map_id]
  | succ fuel ih =>
      match segs with
      | [] => rfl
      | [s] => rfl
      | s :: next :: rest =>
          simp only [mergeLoopFuel, mergeLoopG]
          by_cases hp : ends_with_sentence s.text.trim = true
          · simp [hp, ih]
          · rw [if_neg hp, if_neg hp]
            rw [← innerMergeAbs_agrees (initAcc s) (next :: rest)]
            simp [ih]

/-- Helper for C5: every group emitted by the instrumented loop is
admissible. -/
theorem mergeLoopG_groups (fuel : Nat) (segs : List Segment) :
    ∀ p ∈ mergeLoopG fuel segs, groupOK p.2 = true := by
  induction fuel generalizing segs with
  | zero =>
      intro p hp
      simp only [mergeLoopG] at hp
      obtain ⟨s, _, rfl⟩ := List.mem_map.mp hp
      simp [groupOK, gapsFrom, gapsChainOK]
  | succ fuel ih =>
      intro p hp
      match segs with
      | [] => simp [mergeLoopG] at hp
      | [s] =>
          simp only [mergeLoopG, List.mem_singleton] at hp
          subst hp
          simp [groupOK, gapsFrom, gapsChainOK]
      | s :: next :: rest =>
          simp only [mergeLoopG] at hp
          by_cases hpunct : ends_with_sentence s.text.trim = true
          · rw [if_pos hpunct] at hp
            rcases List.mem_cons.mp hp with hh | hh
            · subst hh; simp [groupOK, gapsFrom, gapsChainOK]
            · exact ih _ p hh
          · rw [if_neg hpunct] at hp
            rcases List.mem_cons.mp hp with hh | hh
            · subst hh
              have hcnt := innerMergeAbs_cnt (initAcc s) (next :: rest)
              have hle := innerMergeAbs_cnt_le (initAcc s) (next :: rest)
                (by simp [initAcc])
              have hgaps := innerMergeAbs_gaps (initAcc s) (next :: rest)
              have h0 : (initAcc s).cnt = 0 := rfl
              rw [h0] at hcnt
              simp only [groupOK, gapsFrom, List.length_cons, Bool.and_eq_true,
                decide_eq_true_eq]
              refine ⟨by omega, ?_⟩
              exact hgaps
            · exact ih _ p hh

/-- C5 (amended): every output segment of merge_sentence_fragments comprises
at most 6 original segments — the seed fragment plus at most 5 absorbed ones,
one more than the claimed 5 — and absorption only ever bridges an adjacent
gap of at most 3.0 s (a gap of exactly 3.0 s may be bridged, contrary to the
claimed strict bound of < 3.0 s); the instrumented grouping mergeGroups
projects onto the function's actual output. -/
theorem c5_amended (segs : List Segment) :
    merge_sentence_fragments segs = (mergeGroups segs).map Prod.fst
    ∧ (mergeGroups segs).all (fun p => groupOK p.2) = true := by
  constructor
  · unfold merge_sentence_fragments mergeGroups
    split
    · rw [List.map_map]
      have hc : (Prod.fst ∘ fun s : Segment => (s, [s])) = id := rfl
      rw [hc, List.map_id]
    · exact mergeLoopG_agrees segs.length segs
  · unfold mergeGroups
    split
    · rw [List.all_eq_true]
      intro p hp
      obtain ⟨s, _, rfl⟩ := List.mem_map.mp hp
      simp [groupOK, gapsFrom, gapsChainOK]
    · rw [List.all_eq_true]
      intro p hp
      exact mergeLoopG_groups segs.length segs p hp

/-- C6, evaluation at the failing input.  segHello is a fragment and
segWorldFar starts 4.0 s after it ends.  The inner loop breaks on
`gap > 3.0` with j still pointing at the never-absorbed segWorldFar, and the
outer loop resumes at `i = j + 1`: segWorldFar is neither emitted nor
absorbed — the transcript content "World." is silently dropped, contradicting
the claim (and the evident purpose of a merge post-processor) that every
input segment is either emitted or absorbed. -/
theorem c6_gap_break_drops_segment :
    merge_sentence_fragments [segHello, segWorldFar] = [segHello]
    ∧ (merge_sentence_fragments [segHello, segWorldFar]).length = 1 := by
  with_unfolding_all decide

/-- C7, counterexample.  The claim says merge_sentence_fragments is
idempotent.  On seven consecutive fragments the first pass stops absorbing at
the 5-absorption cap, emitting a 6-segment merge that still lacks terminal
punctuation, followed by the seventh fragment; the second pass merges those
two outputs, so applying the function to its own output changes it. -/
theorem c7_counterexample :
    merge_sentence_fragments (merge_sentence_fragments ex7)
      ≠ merge_sentence_fragments ex7 := by
  with_unfolding_all decide

/-- Helper for C7: the outer loop copies every segment whose stripped text
ends in terminal punctuation, and the last segment is copied as-is, so on a
list whose non-final segments all end in terminal punctuation the loop is the
identity (for every fuel value). -/
theorem mergeLoopFuel_noop (fuel : Nat) (segs : List Segment)
    (h : ∀ s ∈ segs.dropLast, ends_with_sentence s.text.trim = true) :
    mergeLoopFuel fuel segs = segs := by
  induction fuel generalizing segs with
  | zero => rfl
  | succ fuel ih =>
      match segs with
      | [] => rfl
      | [s] => rfl
      | s :: next :: rest =>
          have hs : ends_with_sentence s.text.trim = true := by
            apply h
            exact List.mem_cons_self s (next :: rest).dropLast
          simp only [mergeLoopFuel, hs, if_true]
          have htail : mergeLoopFuel fuel (next :: rest) = next :: rest := by
            apply ih
            intro x hx
            exact h x (List.mem_cons_of_mem s hx)
          rw [htail]

/-- C7 (amended): merge_sentence_fragments is NOT idempotent in general (see
the counterexample: the 5-absorption cap can emit a non-final segment without
terminal punctuation, which a second pass merges further); it is a no-op —
and hence a fixed point — exactly on the lists the claim's parenthesis
describes: whenever every segment except possibly the last ends in terminal
punctuation, the function returns its input unchanged. -/
theorem c7_amended (segs : List Segment)
    (h : ∀ s ∈ segs.dropLast, ends_with_sentence s.text.trim = true) :
    merge_sentence_fragments segs = segs := by
  unfold merge_sentence_fragments
  split
  · rfl
  · exact mergeLoopFuel_noop segs.length segs h

/-- Two complete sentences far apart. -/
def twoSentences : List Segment :=
  [{ id := "p1", start_time := 0, end_time := 1, text := "One." },
   { id := "p2", start_time := 10, end_time := 11, text := "Two!" }]

/-- C7 (amended), witness at a concrete punctuation-closed list. -/
theorem c7_amended_witness : merge_sentence_fragments twoSentences = twoSentences :=
  c7_amended twoSentences (by with_unfolding_all decide)

/-! ### C8 — cancellation protocol -/

/-- C8, counterexample.  The claim says a cancellation arriving at any point
of the run yields a document finalized with status "cancelled".  The flag is
only inspected once per pulled segment: a flag set after the last segment has
been pulled (here: one segment, flag set after the first inspection) is never
observed, and the run finalizes with status "complete" and emits finished,
never cancelled. -/
theorem c8_counterexample :
    worker_run [segA] 1 5
        = [WEvent.appendSeg segA, WEvent.finalizeDoc 5 "complete", WEvent.finishedEvt]
    ∧ (applyEvents doc0 (worker_run [segA] 1 5)).status = "complete"
    ∧ WEvent.cancelledEvt ∉ worker_run [segA] 1 5 := by
  decide

/-- Helper for C8: when the flag is observed before the segments are
exhausted, the loop emits exactly the appends of the first cancelIn segments
followed by the cancelled-finalize and the cancelled signal, and reports the
cancel path with the running last end time. -/
theorem workerLoopGo_cancel (segs : List SegmentData) (cancelIn : Nat) (le : ℚ)
    (h : cancelIn < segs.length) :
    workerLoopGo segs cancelIn le =
      ((segs.take cancelIn).map WEvent.appendSeg
          ++ [WEvent.finalizeDoc (lastEndD le (segs.take cancelIn)) "cancelled",
              WEvent.cancelledEvt],
       true, lastEndD le (segs.take cancelIn)) := by
  induction segs generalizing cancelIn le with
  | nil => simp at h
  | cons s rest ih =>
      match cancelIn with
      | 0 => rfl
      | n + 1 =>
          have h2 : n < rest.length := by
            have := h
            simp only [List.length_cons] at this
            omega
          have ih2 := ih n s.end_time h2
          simp only [workerLoopGo, ih2, List.take_succ_cons, List.map_cons,
            List.cons_append, lastEndD]

/-- Helper for C8: a run of appends extends the document's segments in
order. -/
theorem applyEvents_append_map (doc : StreamDoc) (l : List SegmentData) :
    applyEvents doc (l.map WEvent.appendSeg)
      = { doc with segments := doc.segments ++ l } := by
  induction l generalizing doc with
  | nil => simp [applyEvents]
  | cons s rest ih =>
      simp only [List.map_cons, applyEvents, applyEvent, append_segment_to_stream, ih,
        List.append_assoc, List.singleton_append]

/-- Helper for C8: applying a concatenation of event lists is sequential
application. -/
theorem applyEvents_append (doc : StreamDoc) (l1 l2 : List WEvent) :
    applyEvents doc (l1 ++ l2) = applyEvents (applyEvents doc l1) l2 := by
  induction l1 generalizing doc with
  | nil => rfl
  | cons e rest ih =>
      simp only [List.cons_append, applyEvents]
      exact ih _

/-- C8 (amended): whenever the worker loop observes the cancellation flag
with segments still remaining (cancelIn < number of segments), the run's
event trace is exactly the appends of the segments pulled before the
observation, then the finalize with status "cancelled" at the running last
end time, then the cancelled signal — so no segment is appended at or after
the observing iteration, the document ends with status "cancelled", and
finalize precedes the cancelled event.  (A flag set only after the last pull
is never observed and the run completes normally — see the
counterexample.) -/
theorem c8_amended (segs : List SegmentData) (cancelIn : Nat) (dur : ℚ)
    (doc : StreamDoc) (h : cancelIn < segs.length) :
    worker_run segs cancelIn dur
        = (segs.take cancelIn).map WEvent.appendSeg
            ++ [WEvent.finalizeDoc (lastEndD 0 (segs.take cancelIn)) "cancelled",
                WEvent.cancelledEvt]
    ∧ (applyEvents doc (worker_run segs cancelIn dur)).status = "cancelled"
    ∧ (applyEvents doc (worker_run segs cancelIn dur)).segments
        = doc.segments ++ segs.take cancelIn := by
  have hgo := workerLoopGo_cancel segs cancelIn 0 h
  have hrun : worker_run segs cancelIn dur
      = (segs.take cancelIn).map WEvent.appendSeg
          ++ [WEvent.finalizeDoc (lastEndD 0 (segs.take cancelIn)) "cancelled",
              WEvent.cancelledEvt] := by
    unfold worker_run
    rw [hgo]
    simp
  refine ⟨hrun, ?_, ?_⟩ <;>
    rw [hrun, applyEvents_append, applyEvents_append_map] <;>
    simp [applyEvents, applyEvent, finalize_stream_file]

/-- C8 (amended), witness: two segments, flag observed at the second
iteration. -/
theorem c8_amended_witness :
    worker_run [segA, segB] 1 0
        = ([segA, segB].take 1).map WEvent.appendSeg
            ++ [WEvent.finalizeDoc (lastEndD 0 ([segA, segB].take 1)) "cancelled",
                WEvent.cancelledEvt]
    ∧ (applyEvents doc0 (worker_run [segA, segB] 1 0)).status = "cancelled"
    ∧ (applyEvents doc0 (worker_run [segA, segB] 1 0)).segments
        = doc0.segments ++ [segA, segB].take 1 :=
  c8_amended [segA, segB] 1 0 doc0 (by decide)

/-! ### C9 — device selection -/

/-- C9: determine_device never raises (it is total and always returns one of
the three described pairs); a probe failure or an empty capability list
yields the CPU/int8 floor; a successful probe with a non-empty capability
list yields cuda with float16 when float16 is among the supported compute
types and cuda with int8 otherwise — for every requested device
preference. -/
theorem c9_device_selection (pref : String) (probe : Except String (List String)) :
    (determine_device pref probe = ("cpu", "int8")
      ∨ determine_device pref probe = ("cuda", "float16")
      ∨ determine_device pref probe = ("cuda", "int8"))
    ∧ (∀ e, probe = Except.error e → determine_device pref probe = ("cpu", "int8"))
    ∧ (probe = Except.ok [] → determine_device pref probe = ("cpu", "int8"))
    ∧ (∀ ts, probe = Except.ok ts → ts ≠ [] →
        determine_device pref probe
          = ("cuda", if ts.contains "float16" then "float16" else "int8")) := by
  match probe with
  | Except.error e =>
      refine ⟨Or.inl rfl, ?_, ?_, ?_⟩ <;> intros <;> simp_all [determine_device]
  | Except.ok ts =>
      refine ⟨?_, ?_, ?_, ?_⟩
      · match ts with
        | [] => exact Or.inl rfl
        | t :: rest =>
            have hd : determine_device pref (Except.ok (t :: rest))
                = ("cuda", if (t :: rest).contains "float16" then "float16" else "int8") := rfl
            cases hc : (t :: rest).contains "float16" with
            | true => exact Or.inr (Or.inl (by rw [hd, hc]; simp))
            | false => exact Or.inr (Or.inr (by rw [hd, hc]; simp))
      · intro e h; exact absurd h (by simp)
      · intro h; cases h; rfl
      · intro ts2 h hne
        have h2 : ts = ts2 := by injection h
        subst h2
        match ts, hne with
        | t :: rest, _ => rfl

/-- C9, witness: a failing probe yields the CPU floor and a successful probe
supporting float16 yields cuda/float16. -/
theorem c9_device_selection_witness :
    determine_device "auto" (Except.error "probe failed") = ("cpu", "int8")
    ∧ determine_device "auto" (Except.ok ["float16", "int8"]) = ("cuda", "float16") := by
  refine ⟨(c9_device_selection "auto" _).2.1 "probe failed" rfl, ?_⟩
  have h := (c9_device_selection "auto" (Except.ok ["float16", "int8"])).2.2.2
    ["float16", "int8"] rfl (by decide)
  simpa using h

/-! ### C4 — tolerance of the recovery loader -/

/-- C4, counterexample.  The claim says a malformed segment entry is skipped
and every well-formed segment is still returned.  In the code the whole
segments loop runs inside the single outer try: the KeyError of one malformed
entry aborts the load and returns None, discarding the well-formed segment
(parseSegmentE accepts goodSegJ, yet the document holding goodSegJ and
badSegJ loads to None, not to a one-segment transcript). -/
theorem c4_counterexample :
    parseSegmentE goodSegJ
        = Except.ok { id := "s1", start_time := 0, end_time := 1, text := "alpha", words := [] }
    ∧ load_from_stream_file (some c4doc) = none := by
  exact ⟨rfl, rfl⟩

/-- Dict lookup skips a binding with a different key. -/
theorem jLookup_cons_ne (k key : String) (v : JVal) (fs : List (String × JVal))
    (h : ¬ k = key) : jLookup ((k, v) :: fs) key = jLookup fs key := by
  simp [jLookup, h]

/-- Helper for C4: an element on which the conversion raises makes the whole
loop raise. -/
theorem mapME_mem_error (f : JVal → Except LoadErr α) (l : List JVal) (j : JVal)
    (e : LoadErr) (hj : j ∈ l) (hbad : f j = Except.error e) :
    ∃ e2, mapME f l = Except.error e2 := by
  induction l with
  | nil => simp at hj
  | cons a rest ih =>
      cases hfa : f a with
      | error e3 => exact ⟨e3, by simp [mapME, hfa, Bind.bind, Except.bind]⟩
      | ok y =>
          rcases List.mem_cons.mp hj with hja | hjr
          · subst hja
            rw [hbad] at hfa
            exact absurd hfa (by simp)
          · obtain ⟨e2, he2⟩ := ih hjr
            exact ⟨e2, by simp [mapME, hfa, he2, Bind.bind, Except.bind]⟩

/-- C4 (amended): load_from_stream_file never inspects the status field — a
document loads identically under any status value, so in_progress and error
documents load exactly like complete ones; and when every entry of the
segments list is well-formed the full transcript is returned — but one
malformed entry is NOT skipped: it makes the whole load return None. -/
theorem c4_amended :
    (∀ (v : JVal) (fs : List (String × JVal)),
        load_from_stream_file (some (JVal.jobj (("status", v) :: fs)))
          = load_from_stream_file (some (JVal.jobj fs)))
    ∧ (∀ (fs : List (String × JVal)) (segJs : List JVal) (segments : List Segment)
          (dur : ℚ) (af : String),
        jLookup fs "segments" = some (JVal.jarr segJs) →
        mapME parseSegmentE segJs = Except.ok segments →
        jLookup fs "audio_duration" = some (JVal.jnum dur) →
        jLookup fs "audio_file" = some (JVal.jstr af) →
        load_from_stream_file (some (JVal.jobj fs))
          = some { segments := segments, audio_duration := dur, audio_file := af })
    ∧ (∀ (fs : List (String × JVal)) (segJs : List JVal) (j : JVal) (e : LoadErr),
        jLookup fs "segments" = some (JVal.jarr segJs) →
        j ∈ segJs →
        parseSegmentE j = Except.error e →
        load_from_stream_file (some (JVal.jobj fs)) = none) := by
  refine ⟨?_, ?_, ?_⟩
  · intro v fs
    have hl : load_fields (("status", v) :: fs) = load_fields fs := by
      unfold load_fields jGet
      rw [jLookup_cons_ne "status" "segments" v fs (by decide),
          jLookup_cons_ne "status" "audio_duration" v fs (by decide),
          jLookup_cons_ne "status" "audio_file" v fs (by decide)]
    simp [load_from_stream_file, load_inner, hl]
  · intro fs segJs segments dur af h1 h2 h3 h4
    simp [load_from_stream_file, load_inner, load_fields, jGet, h1, h2, h3, h4,
      asArr, asNum, asStr, Bind.bind, Except.bind]
  · intro fs segJs j e h1 hj hbad
    obtain ⟨e2, he2⟩ := mapME_mem_error parseSegmentE segJs j e hj hbad
    simp [load_from_stream_file, load_inner, load_fields, jGet, h1, he2,
      asArr, Bind.bind, Except.bind]

/-- Fields of a stream document in progress with one well-formed segment. -/
def inProgressFields : List (String × JVal) :=
  [("segments", JVal.jarr [goodSegJ]), ("audio_duration", JVal.jnum 3),
   ("audio_file", JVal.jstr "a.wav")]

/-- C4 (amended), witness: concrete documents for each of the three parts. -/
theorem c4_amended_witness :
    load_from_stream_file (some (JVal.jobj (("status", JVal.jstr "in_progress") :: inProgressFields)))
        = load_from_stream_file (some (JVal.jobj inProgressFields))
    ∧ load_from_stream_file (some (JVal.jobj inProgressFields))
        = some { segments := [{ id := "s1", start_time := 0, end_time := 1,
                                text := "alpha", words := [] }],
                 audio_duration := 3, audio_file := "a.wav" }
    ∧ load_from_stream_file (some (JVal.jobj [("segments", JVal.jarr [badSegJ])])) = none :=
  ⟨c4_amended.1 (JVal.jstr "in_progress") inProgressFields,
   c4_amended.2.1 inProgressFields [goodSegJ]
     [{ id := "s1", start_time := 0, end_time := 1, text := "alpha", words := [] }]
     3 "a.wav" rfl rfl rfl rfl,
   c4_amended.2.2 [("segments", JVal.jarr [badSegJ])] [badSegJ] badSegJ
     (LoadErr.keyError "id") rfl (List.mem_cons_self badSegJ []) rfl⟩

/-! ### C10 — totality of the recovery loader -/

/-- C10: load_from_stream_file is total at its public interface — for every
input it returns the value of the try-block body when that body succeeds, and
None when the body raises any error (missing file, invalid JSON, missing
fields); no error propagates past the except handler. -/
theorem c10_load_total (file : Option JVal) :
    (∃ t, load_inner file = Except.ok t ∧ load_from_stream_file file = some t)
    ∨ (∃ e, load_inner file = Except.error e ∧ load_from_stream_file file = none) := by
  cases h : load_inner file with
  | ok t => exact Or.inl ⟨t, rfl, by simp [load_from_stream_file, h]⟩
  | error e => exact Or.inr ⟨e, rfl, by simp [load_from_stream_file, h]⟩

end PersonalTranscribe
